import Mathlib

/-!
Verification of the protocol core of the CAN-bus example robot program
(src/roborio/robot.py): the CAN API address builder `can_api`, the command
encoder `encode_counter_command_packet` and the count decoder
`decode_counter_count_packet`, embedded shallowly with Python byte strings
as lists of naturals below 256 and `struct` failures as `Except` errors.
-/

namespace RoborioCAN

/-- Failure kinds of the Python `struct` calls in the core:
`malformedPacket` is the `struct.error` raised by `struct.unpack("<H", b)`
when `b` holds fewer than 2 bytes, and `ubyteOutOfRange` is the
`struct.error` raised by `struct.pack("<B", v)` when `v` is outside
[0, 255]. -/
inductive StructError where
  | malformedPacket : StructError
  | ubyteOutOfRange : StructError
deriving DecidableEq

/-- `DEVICE_NUMBER = 0` from robot.py line 15. -/
def DEVICE_NUMBER : Nat := 0

/-- `API_CLASS_COUNTER = 0` from robot.py line 18. -/
def API_CLASS_COUNTER : Nat := 0

/-- `API_INDEX_COUNTER_CONTROL = 1` from robot.py line 19. -/
def API_INDEX_COUNTER_CONTROL : Nat := 1

/-- `API_INDEX_COUNTER_COUNT = 2` from robot.py line 20. -/
def API_INDEX_COUNTER_COUNT : Nat := 2

/-- `can_api(api_class, api_index) = (api_class << 4) + api_index`
from robot.py lines 23-25.  Note the source uses `+`, not `|`. -/
def can_api (api_class api_index : Nat) : Nat :=
  (api_class <<< 4) + api_index

/-- The flag accumulation loop of `encode_counter_command_packet`
(robot.py lines 34-37): starting from 0, for each flag in the order
`[enabled, button_b, button_a]`, shift left by one and set the new low
bit when the flag is true. -/
def encodeFlags (enabled button_a button_b : Bool) : Nat :=
  List.foldl (fun flags flag => if flag then (flags <<< 1) ||| 1 else flags <<< 1) 0
    [enabled, button_b, button_a]

/-- Python `struct.pack` of one `"B"` (unsigned byte) field: yields the
byte when the value is in [0, 255] and raises `struct.error` otherwise
(CPython performs no truncation for the `B` format). -/
def packUByte (v : Int) : Except StructError Nat :=
  if 0 ≤ v ∧ v ≤ 255 then .ok v.toNat else .error .ubyteOutOfRange

/-- `encode_counter_command_packet(enabled, button_a, button_b, speed)`
from robot.py lines 28-38: builds the flag byte and returns
`struct.pack("<BB", speed, flags)`, the two-byte sequence
`[speed, flags]`.  The speed is an arbitrary Python integer; `struct.pack`
rejects values outside [0, 255]. -/
def encode_counter_command_packet (enabled button_a button_b : Bool)
    (speed : Int) : Except StructError (List Nat) := do
  let flags := encodeFlags enabled button_a button_b
  let b0 ← packUByte speed
  let b1 ← packUByte (flags : Int)
  pure [b0, b1]

/-- `decode_counter_count_packet(packet)` from robot.py lines 41-46:
`struct.unpack("<H", packet.data[:2])`, i.e. take the first two bytes of
the payload and read them as a little-endian unsigned 16-bit integer;
when fewer than two bytes are available the slice is shorter than two
bytes and `struct.unpack` raises `struct.error`. -/
def decode_counter_count_packet (data : List Nat) : Except StructError Nat :=
  match data.take 2 with
  | [b0, b1] => .ok (b0 + 256 * b1)
  | _ => .error .malformedPacket

/-- Modelled from the spec: the repository exposes no encoder for the
count value; the spec's round-trip property supposes a test harness that
encodes a count in [0, 65535] as 2 little-endian bytes, low byte first. -/
def encodeCountLE (count : Nat) : List Nat :=
  [count % 256, count / 256]

/-- The integer value `struct.pack` reads from a Python boolean: `True`
is the integer 1 and `False` the integer 0. -/
def pyBoolToInt (b : Bool) : Int := if b then 1 else 0

/-- The packet built by `MyRobot.autonomousExit` (robot.py line 107):
`encode_counter_command_packet(False, True, True, True)` — the speed
argument is the Python boolean `True`. -/
def autonomousExitPacket : Except StructError (List Nat) :=
  encode_counter_command_packet false true true (pyBoolToInt true)

/-! ## Helper lemmas -/

/-- The flag accumulator is always at most 7 (three bits). -/
theorem encodeFlags_le_seven (e a b : Bool) : encodeFlags e a b ≤ 7 := by
  cases e <;> cases a <;> cases b <;> decide

/-- `can_api` computed in plain arithmetic. -/
theorem can_api_eq (a b : Nat) : can_api a b = a * 16 + b := by
  simp [can_api, Nat.shiftLeft_eq]

/-- Successful encoding for an in-range natural speed. -/
theorem encode_ok (e a b : Bool) (speed : Nat) (hs : speed ≤ 255) :
    encode_counter_command_packet e a b (speed : Int)
      = .ok [speed, encodeFlags e a b] := by
  have hf := encodeFlags_le_seven e a b
  have h0 : (0 : Int) ≤ (speed : Int) := Int.ofNat_nonneg speed
  have h1 : (speed : Int) ≤ 255 := by exact_mod_cast hs
  have h2 : (0 : Int) ≤ (encodeFlags e a b : Int) := Int.ofNat_nonneg _
  have h3 : (encodeFlags e a b : Int) ≤ 255 := by
    have : encodeFlags e a b ≤ 255 := le_trans hf (by norm_num)
    exact_mod_cast this
  simp only [encode_counter_command_packet, packUByte, if_pos (And.intro h0 h1),
    if_pos (And.intro h2 h3)]
  rfl

/-- Any bit from position 3 up of the flag byte is clear. -/
theorem encodeFlags_testBit_high (e a b : Bool) (i : Nat) (hi : 3 ≤ i) :
    (encodeFlags e a b).testBit i = false := by
  apply Nat.testBit_lt_two_pow
  have hf := encodeFlags_le_seven e a b
  have hpow : (2 : Nat) ^ 3 ≤ 2 ^ i := Nat.pow_le_pow_right (by norm_num) hi
  calc encodeFlags e a b ≤ 7 := hf
    _ < 2 ^ 3 := by norm_num
    _ ≤ 2 ^ i := hpow

/-- C1: for every combination of booleans (enabled, buttonA, buttonB) and
every speed in [0, 255], the flags byte (byte 1) of the encoder's result
has bit 2 equal to enabled, bit 1 equal to buttonB and bit 0 equal to
buttonA; in particular encoding (true, true, true, 128) yields the bytes
[128, 0b111] and encoding (false, true, true, 255) yields [255, 0b011]. -/
theorem encode_flag_bit_layout (enabled button_a button_b : Bool) (speed : Nat)
    (hs : speed ≤ 255) :
    (∃ f : Nat, encode_counter_command_packet enabled button_a button_b (speed : Int)
        = .ok [speed, f] ∧ f.testBit 2 = enabled ∧ f.testBit 1 = button_b ∧
        f.testBit 0 = button_a) ∧
    encode_counter_command_packet true true true 128 = .ok [128, 7] ∧
    encode_counter_command_packet false true true 255 = .ok [255, 3] := by
  refine ⟨⟨encodeFlags enabled button_a button_b, encode_ok _ _ _ speed hs, ?_, ?_, ?_⟩,
      ?_, ?_⟩
  · cases enabled <;> cases button_a <;> cases button_b <;> decide
  · cases enabled <;> cases button_a <;> cases button_b <;> decide
  · cases enabled <;> cases button_a <;> cases button_b <;> decide
  · exact encode_ok true true true 128 (by norm_num)
  · exact encode_ok false true true 255 (by norm_num)

/-- Witness for C1 at enabled = true, buttonA = false, buttonB = true,
speed = 200. -/
theorem encode_flag_bit_layout_witness :
    (∃ f : Nat, encode_counter_command_packet true false true (200 : Nat)
        = .ok [200, f] ∧ f.testBit 2 = true ∧ f.testBit 1 = true ∧
        f.testBit 0 = false) ∧
    encode_counter_command_packet true true true 128 = .ok [128, 7] ∧
    encode_counter_command_packet false true true 255 = .ok [255, 3] :=
  encode_flag_bit_layout true false true 200 (by norm_num)

/-- C2: for every combination of booleans and every speed in [0, 255], the
encoder returns exactly 2 bytes, byte 0 equal to speed and byte 1 with bits
3 through 7 (indeed all bits from 3 up) clear. -/
theorem encode_two_bytes_high_bits_clear (enabled button_a button_b : Bool)
    (speed : Nat) (hs : speed ≤ 255) :
    ∃ f : Nat, encode_counter_command_packet enabled button_a button_b (speed : Int)
        = .ok [speed, f] ∧ ∀ i : Nat, 3 ≤ i → f.testBit i = false :=
  ⟨encodeFlags enabled button_a button_b, encode_ok _ _ _ speed hs,
    fun i hi => encodeFlags_testBit_high _ _ _ i hi⟩

/-- Witness for C2 at (false, true, false, 37). -/
theorem encode_two_bytes_high_bits_clear_witness :
    ∃ f : Nat, encode_counter_command_packet false true false (37 : Nat)
        = .ok [37, f] ∧ ∀ i : Nat, 3 ≤ i → f.testBit i = false :=
  encode_two_bytes_high_bits_clear false true false 37 (by norm_num)

/-- C3: for every payload of length at least 2 whose first two entries are
bytes, the decoder returns payload[0] + 256 * payload[1], a value in
[0, 65535], ignoring all bytes past the first two; in particular
[0x34, 0x12] decodes to 0x1234 and so does [0x34, 0x12, 0xFF]. -/
theorem decode_little_endian (b0 b1 : Nat) (rest : List Nat)
    (h0 : b0 ≤ 255) (h1 : b1 ≤ 255) :
    decode_counter_count_packet (b0 :: b1 :: rest) = .ok (b0 + 256 * b1) ∧
    b0 + 256 * b1 ≤ 65535 ∧
    decode_counter_count_packet [0x34, 0x12] = .ok 0x1234 ∧
    decode_counter_count_packet [0x34, 0x12, 0xFF] = .ok 0x1234 := by
  refine ⟨rfl, by omega, rfl, rfl⟩

/-- Witness for C3 at payload [0x34, 0x12, 0xFF]. -/
theorem decode_little_endian_witness :
    decode_counter_count_packet [0x34, 0x12, 0xFF] = .ok (0x34 + 256 * 0x12) ∧
    0x34 + 256 * 0x12 ≤ 65535 ∧
    decode_counter_count_packet [0x34, 0x12] = .ok 0x1234 ∧
    decode_counter_count_packet [0x34, 0x12, 0xFF] = .ok 0x1234 :=
  decode_little_endian 0x34 0x12 [0xFF] (by norm_num) (by norm_num)

/-- C4: the decoder fails with the MalformedPacket error kind exactly when
the payload has fewer than 2 bytes, and has no other failure mode; in
particular the one-byte payload [0x01] fails with MalformedPacket. -/
theorem decode_error_iff_short (data : List Nat) (e : StructError) :
    (decode_counter_count_packet data = .error e ↔
      (data.length < 2 ∧ e = .malformedPacket)) ∧
    decode_counter_count_packet [0x01] = .error .malformedPacket := by
  refine ⟨?_, rfl⟩
  rcases data with _ | ⟨b0, _ | ⟨b1, rest⟩⟩ <;>
    simp [decode_counter_count_packet] <;> cases e <;> simp

/-- C5: round trip — for every count in [0, 65535], encoding it as two
little-endian bytes (low byte first) and decoding returns the count
unchanged. -/
theorem decode_encode_roundtrip (count : Nat) (h : count ≤ 65535) :
    decode_counter_count_packet (encodeCountLE count) = .ok count := by
  simp only [encodeCountLE, decode_counter_count_packet, List.take]
  congr 1
  omega

/-- Witness for C5 at count = 0x1234. -/
theorem decode_encode_roundtrip_witness :
    decode_counter_count_packet (encodeCountLE 0x1234) = .ok 0x1234 :=
  decode_encode_roundtrip 0x1234 (by norm_num)

/-- C6: for every deviceClass in [0, 15] and subIndex in [0, 15],
can_api(deviceClass, subIndex) equals deviceClass * 16 + subIndex. -/
theorem can_api_mul_add (dc si : Nat) (hdc : dc ≤ 15) (hsi : si ≤ 15) :
    can_api dc si = dc * 16 + si :=
  can_api_eq dc si

/-- Witness for C6 at deviceClass = 0, subIndex = 1 (the control API id
used by the robot program). -/
theorem can_api_mul_add_witness :
    can_api API_CLASS_COUNTER API_INDEX_COUNTER_CONTROL
      = API_CLASS_COUNTER * 16 + API_INDEX_COUNTER_CONTROL :=
  can_api_mul_add API_CLASS_COUNTER API_INDEX_COUNTER_CONTROL
    (by norm_num [API_CLASS_COUNTER]) (by norm_num [API_INDEX_COUNTER_CONTROL])

/-- C7 counterexample: the claim says can_api equals the bitwise-or form
(deviceClass <<< 4) ||| subIndex for every non-negative subIndex including
subIndex >= 16, but the source computes (deviceClass << 4) + subIndex: at
deviceClass = 1, subIndex = 16 the sum is 32 while the or is 16. -/
theorem can_api_or_counterexample :
    can_api 1 16 = 32 ∧ ((1 : Nat) <<< 4) ||| 16 = 16 ∧
    can_api 1 16 ≠ ((1 : Nat) <<< 4) ||| 16 := by decide

/-- C7 (amended): for every non-negative deviceClass and subIndex, with no
range checking performed, can_api(deviceClass, subIndex) equals
(deviceClass << 4) + subIndex; this coincides with the bitwise or
(deviceClass << 4) ||| subIndex whenever subIndex is at most 15. -/
theorem can_api_shift_add (dc si : Nat) :
    can_api dc si = (dc <<< 4) + si ∧
    (si ≤ 15 → can_api dc si = (dc <<< 4) ||| si) := by
  refine ⟨rfl, fun h => ?_⟩
  have h16 : (2 : Nat) ^ 4 = 16 := by norm_num
  have hlt : si < 2 ^ 4 := by omega
  have hsl : dc <<< 4 = 2 ^ 4 * dc := by rw [Nat.shiftLeft_eq, Nat.mul_comm]
  show (dc <<< 4) + si = (dc <<< 4) ||| si
  rw [hsl]
  exact Nat.mul_add_lt_is_or hlt dc

/-- Witness for C7 (amended) at deviceClass = 2, subIndex = 5. -/
theorem can_api_shift_add_witness :
    can_api 2 5 = ((2 : Nat) <<< 4) + 5 ∧ can_api 2 5 = ((2 : Nat) <<< 4) ||| 5 :=
  ⟨(can_api_shift_add 2 5).1, (can_api_shift_add 2 5).2 (by norm_num)⟩

/-- C8 counterexample: the claim says encoding never fails and truncates
out-of-range speeds, but struct.pack("<BB", 256, flags) raises
struct.error, so the encoder fails at speed = 256. -/
theorem encode_raises_counterexample :
    encode_counter_command_packet true true true 256 = .error .ubyteOutOfRange := rfl

/-- C8 (amended): the encoder never fails for speed in [0, 255], returning
exactly the 2 bytes [speed, flags]; for any integer speed outside [0, 255]
(negative or above 255) struct.pack raises struct.error — it signals an
error rather than truncating. -/
theorem encode_fails_out_of_range (e a b : Bool) (speed : Int) :
    (0 ≤ speed → speed ≤ 255 →
      encode_counter_command_packet e a b speed
        = .ok [speed.toNat, encodeFlags e a b]) ∧
    (speed < 0 ∨ 255 < speed →
      encode_counter_command_packet e a b speed = .error .ubyteOutOfRange) := by
  constructor
  · intro h0 h1
    have hs : speed.toNat ≤ 255 := by omega
    have henc := encode_ok e a b speed.toNat hs
    rwa [Int.toNat_of_nonneg h0] at henc
  · intro h
    have hcond : ¬ (0 ≤ speed ∧ speed ≤ 255) := by omega
    simp only [encode_counter_command_packet, packUByte, if_neg hcond]
    rfl

/-- Witness for C8 (amended) at (true, true, true) with speeds 100 and
300. -/
theorem encode_fails_out_of_range_witness :
    encode_counter_command_packet true true true 100 = .ok [100, 7] ∧
    encode_counter_command_packet true true true 300 = .error .ubyteOutOfRange := by
  constructor
  · have henc := (encode_fails_out_of_range true true true 100).1
      (by norm_num) (by norm_num)
    simpa using henc
  · exact (encode_fails_out_of_range true true true 300).2 (Or.inr (by norm_num))

/-- C9: the disable packet of MyRobot.autonomousExit passes the Python
boolean True as the speed argument, so
encode_counter_command_packet(False, True, True, True) returns the bytes
[0x01, 0x03]: the speed byte is 1 (True packed as an unsigned byte), not
0. -/
theorem autonomousExit_packet_bytes : autonomousExitPacket = .ok [0x01, 0x03] := rfl

/-- C10: can_api is injective on the in-range domain — two in-range pairs
(all four components at most 15) with the same address are equal — and
every in-range address is at most 255. -/
theorem can_api_injective_in_range (dc si dc2 si2 : Nat)
    (h1 : dc ≤ 15) (h2 : si ≤ 15) (h3 : dc2 ≤ 15) (h4 : si2 ≤ 15) :
    (can_api dc si = can_api dc2 si2 → dc = dc2 ∧ si = si2) ∧
    can_api dc si ≤ 255 := by
  simp only [can_api_eq]
  refine ⟨fun h => ?_, by omega⟩
  omega

/-- Witness for C10 at (3, 7) and (3, 7). -/
theorem can_api_injective_in_range_witness :
    (can_api 3 7 = can_api 3 7 → 3 = 3 ∧ 7 = 7) ∧ can_api 3 7 ≤ 255 :=
  can_api_injective_in_range 3 7 3 7 (by norm_num) (by norm_num)
    (by norm_num) (by norm_num)

end RoborioCAN
